import Mathlib

/-!
Command / reply protocol of the agent (`package proto`, `cmd.go`).

A shallow embedding of the command registry `Commands`, the request envelope
`Cmd`, the response envelope `Reply`, and of the methods `Cmd.Validate`,
`Cmd.Reply` and `Cmd.String`, followed by theorems about them.

Conventions of the embedding.

* A Go `string` is a `String`, compared with `==` character by character.
* A Go `error` value is a `GoError` carrying the text returned by its
  `Error()` method; the nil error is `none`.
* A Go `[]byte` is an `Option (List UInt8)`; the nil slice is `none`.
* The Go map `Commands` is an association list with pairwise distinct keys,
  read by `List.lookup`.
* `fmt.Sprintf` with `%s` verbs applied to strings is string concatenation.
* `json.Marshal` belongs to the standard library, so `Cmd.Reply` takes the
  encoder as an argument; likewise `Cmd.String` takes the rendering of a
  `time.Time` as an argument.
* `log.Fatal` ends the process: `Cmd.Reply` returns `Except.error` in that case
  and `Except.ok` with the reply otherwise.
-/

set_option linter.dupNamespace false

namespace Proto

/-- A Go `error`: the only observation made on it is the text of `Error()`. -/
structure GoError where
  Error : String
  deriving DecidableEq, Repr

/-- The function `errors.New`. -/
def errorsNew (text : String) : GoError := ⟨text⟩

/-- A Go `[]byte`; `none` is the nil slice. -/
abbrev Bytes := Option (List UInt8)

/-- A `time.Time` instant (seconds and nanoseconds since the epoch, and the
name of its location). None of the modelled operations inspects it. -/
structure Time where
  sec : Int
  nsec : Nat
  loc : String
  deriving DecidableEq, Repr

/-- The registry `Commands`: service name to the commands it accepts. -/
def Commands : List (String × List String) :=
  [ ("", ["SetLogFile", "SetLogLevel", "SetDataDir", "StartService", "StopService",
          "Status", "Update", "Stop", "Abort"]),
    ("qan", []),
    ("mm", ["StartMonitor", "StopMonitor"]) ]

/-- The request envelope `Cmd`. -/
structure Cmd where
  User : String
  Ts : Time
  AgentUuid : String
  Cmd : String
  Service : String
  Data : Bytes
  RelayId : String
  deriving DecidableEq, Repr

/-- The response envelope `Reply`. -/
structure Reply where
  Cmd : String
  Error : String
  Data : Bytes
  RelayId : String
  deriving DecidableEq, Repr

/-- Payload `ServiceData`. -/
structure ServiceData where
  Name : String
  Config : Bytes
  deriving DecidableEq, Repr

/-- Payload `StatusData`; the nil slice and the nil map are `none`. -/
structure StatusData where
  Agent : String
  CmdQueue : Option (List String)
  Service : Option (List (String × String))
  deriving DecidableEq, Repr

/-- Payload `LogFile`. -/
structure LogFile where
  File : String
  deriving DecidableEq, Repr

/-- Payload `LogLevel`. -/
structure LogLevel where
  Level : Int
  deriving DecidableEq, Repr

/-- The map read `cmds, ok := Commands[service]`: `none` when `ok` is false. -/
def lookupCommands (service : String) : Option (List String) :=
  Commands.lookup service

/-- The loop of `Validate`: walks `cmds` in order and stops with `true` at the
first element equal to `cmd`; `false` when the range is exhausted. -/
def validCmdLoop (cmd : String) : List String → Bool
  | [] => false
  | val :: rest => if cmd = val then true else validCmdLoop cmd rest

/-- The method `(cmd *Cmd) Validate() error`; `none` is the nil error. -/
def Cmd.Validate (cmd : Proto.Cmd) : Option GoError :=
  match lookupCommands cmd.Service with
  | none => some (errorsNew ("Invalid service: " ++ cmd.Service))
  | some cmds =>
    let validCmd := validCmdLoop cmd.Cmd cmds
    if !validCmd then
      some (errorsNew ("Invalid command for " ++ cmd.Service ++ ": " ++ cmd.Cmd))
    else
      none

/-- The method `(cmd *Cmd) Reply(err error, data interface{}) *Reply`.
`marshal` stands for `json.Marshal` on the dynamic type of `data`; a nil `data`
is `none`. `Except.error e` is the process ending in `log.Fatal(e)`. -/
def Cmd.Reply {α : Type} (marshal : α → Except GoError (List UInt8))
    (cmd : Proto.Cmd) (err : Option GoError) (data : Option α) : Except GoError Proto.Reply :=
  let reply : Proto.Reply := { Cmd := cmd.Cmd, Error := "", Data := none, RelayId := cmd.RelayId }
  let reply : Proto.Reply :=
    match err with
    | some e => { reply with Error := e.Error }
    | none => reply
  match data with
  | some d =>
    match marshal d with
    | .error jsonErr => .error jsonErr
    | .ok codedData => .ok { reply with Data := some codedData }
  | none => .ok reply

/-! ## Vocabulary of the statements -/

/-- The eleven (service, command) pairs listed as accepted. -/
def acceptedPairs : List (String × String) :=
  [ ("", "SetLogFile"), ("", "SetLogLevel"), ("", "SetDataDir"), ("", "StartService"),
    ("", "StopService"), ("", "Status"), ("", "Update"), ("", "Stop"), ("", "Abort"),
    ("mm", "StartMonitor"), ("mm", "StopMonitor") ]

/-- The all-lowercase form of a string (letters A-Z mapped to a-z). -/
def lowerForm (s : String) : String := ⟨s.data.map Char.toLower⟩

/-- The all-uppercase form of a string (letters a-z mapped to A-Z). -/
def upperForm (s : String) : String := ⟨s.data.map Char.toUpper⟩

/-- The text `Cmd.Reply` stores in `Reply.Error` (lines 114-116): `err.Error()`
for a non-nil `err`, and the zero value of the field otherwise. -/
def replyErrorText (err : Option GoError) : String :=
  match err with
  | some e => e.Error
  | none => ""

/-! ## A sample encoder and sample values

`sampleMarshalStatusData` writes a `StatusData` in the shape `json.Marshal`
gives it. It only serves to instantiate the encoder argument of `Cmd.Reply` at
concrete values; the theorems hold for every encoder. -/

/-- UTF-8 bytes of a string. -/
def utf8Bytes (s : String) : List UInt8 := s.data.flatMap String.utf8EncodeChar

/-- A JSON string literal: the text between double quotes, with the double
quote and the backslash escaped by a backslash. -/
def jsonQuote (s : String) : String :=
  "\"" ++ String.mk (s.data.flatMap fun c =>
    if c = Char.ofNat 34 ∨ c = Char.ofNat 92 then [Char.ofNat 92, c] else [c]) ++ "\""

/-- A JSON array of already encoded items. -/
def jsonArray (items : List String) : String :=
  "[" ++ ",".intercalate items ++ "]"

/-- A JSON object of already encoded member values, in list order. -/
def jsonObject (members : List (String × String)) : String :=
  "\x7b" ++ ",".intercalate (members.map fun m => jsonQuote m.1 ++ ":" ++ m.2) ++ "\x7d"

/-- Sample encoder for `StatusData`; nil slice and nil map are written `null`. -/
def sampleMarshalStatusData (sd : StatusData) : Except GoError (List UInt8) :=
  .ok (utf8Bytes (jsonObject
    [ ("Agent", jsonQuote sd.Agent),
      ("CmdQueue", match sd.CmdQueue with
        | none => "null"
        | some q => jsonArray (q.map jsonQuote)),
      ("Service", match sd.Service with
        | none => "null"
        | some m => jsonObject (m.map fun kv => (kv.1, jsonQuote kv.2))) ]))

/-- A `StatusData` value. -/
def sampleStatus : StatusData :=
  { Agent := "Ready", CmdQueue := some ["Stop"], Service := some [("mm", "Running")] }

/-- A `Cmd` with the given service, command name and relay id; the other fields
hold fixed values. -/
def sampleCmd (service cmd relayId : String) : Proto.Cmd :=
  { User := "daniel", Ts := ⟨1400000000, 0, "UTC"⟩, AgentUuid := "00000000-0000", Cmd := cmd,
    Service := service, Data := none, RelayId := relayId }

/-! ## Further operations and sample values -/

/-- The method `(cmd *Cmd) String() string`. `timeString` stands for the
`String()` method of `time.Time`, which `fmt.Sprintf` applies to `cmd.Ts` under
the verb `%s`. -/
def Cmd.String (timeString : Time → String) (cmd : Proto.Cmd) :=
  "Cmd:" ++ cmd.Cmd ++ " Service:" ++ cmd.Service ++ " User:" ++ cmd.User
    ++ " Ts:" ++ timeString cmd.Ts

/-- What `Validate` can reach: the package variable `Commands` and the struct
its receiver points to. -/
structure Store where
  Commands : List (String × List String)
  cmd : Proto.Cmd
  deriving DecidableEq, Repr

/-- The method `Validate` run on a store, statement by statement: the returned
error together with the store it leaves behind. The body only reads
`Commands[cmd.Service]`, `cmd.Service` and `cmd.Cmd`; `cmds`, `ok` and
`validCmd` are locals. -/
def validateStore (st : Store) : Option GoError × Store :=
  match st.Commands.lookup st.cmd.Service with
  | none => (some (errorsNew ("Invalid service: " ++ st.cmd.Service)), st)
  | some cmds =>
    let validCmd := validCmdLoop st.cmd.Cmd cmds
    if !validCmd then
      (some (errorsNew ("Invalid command for " ++ st.cmd.Service ++ ": " ++ st.cmd.Cmd)), st)
    else
      (none, st)

/-- The zero value of `Cmd`: every field holds the zero value of its type. -/
def zeroCmd : Proto.Cmd :=
  { User := "", Ts := ⟨0, 0, ""⟩, AgentUuid := "", Cmd := "", Service := "", Data := none,
    RelayId := "" }

/-- A sample payload: a `StatusData`, or a Go channel, a kind of value for which
`json.Marshal` returns an error. -/
inductive SamplePayload where
  | status (sd : StatusData)
  | channel
  deriving DecidableEq, Repr

/-- Sample encoder for `SamplePayload`. -/
def sampleMarshal : SamplePayload → Except GoError (List UInt8)
  | .status sd => sampleMarshalStatusData sd
  | .channel => .error (errorsNew "json: unsupported type: chan int")

/-- A sample rendering of an instant, standing for `time.Time.String`. -/
def sampleTimeString (t : Time) : String :=
  toString t.sec ++ "." ++ toString t.nsec ++ " " ++ t.loc

/-! ## The encoded form of `Cmd` and `Reply`

The struct declarations carry `json` tags; the encoder and the decoder that
read them (`encoding/json`) are not part of the sources. -/

/-- A field value of `Cmd` or `Reply`: a string, an instant or a byte slice. -/
inductive GoValue where
  | str (s : String)
  | time (t : Time)
  | bytes (b : Bytes)
  deriving DecidableEq, Repr

/-- The empty values in the sense of `omitempty`: the empty string and the byte
slice of length 0, nil or not. A struct value such as an instant is never empty. -/
def GoValue.isEmpty : GoValue → Bool
  | .str s => decide (s = "")
  | .time _ => false
  | .bytes none => true
  | .bytes (some b) => b.isEmpty

/-- A struct field as the encoder sees it: its name, whether its tag says
`omitempty`, and its value. -/
structure Field where
  name : String
  omitempty : Bool
  value : GoValue
  deriving DecidableEq, Repr

/-- The fields of `Cmd` in declaration order, with their tags (lines 42-51):
`Service`, `Data` and `RelayId` are tagged `json:",omitempty"`. -/
def cmdFields (c : Proto.Cmd) : List Field :=
  [ ⟨"User", false, .str c.User⟩,
    ⟨"Ts", false, .time c.Ts⟩,
    ⟨"AgentUuid", false, .str c.AgentUuid⟩,
    ⟨"Cmd", false, .str c.Cmd⟩,
    ⟨"Service", true, .str c.Service⟩,
    ⟨"Data", true, .bytes c.Data⟩,
    ⟨"RelayId", true, .str c.RelayId⟩ ]

/-- The fields of `Reply` in declaration order, with their tags (lines 54-60):
only `Data` is tagged `json:",omitempty"`. -/
def replyFields (r : Proto.Reply) : List Field :=
  [ ⟨"Cmd", false, .str r.Cmd⟩,
    ⟨"Error", false, .str r.Error⟩,
    ⟨"Data", true, .bytes r.Data⟩,
    ⟨"RelayId", false, .str r.RelayId⟩ ]

/-- Modelled from the spec: the structured-data encoding of a record, which the
sources leave to `encoding/json`. A field tagged `omitempty` whose value is
empty is left out of the encoded form; every other field becomes the member
named after it. Members keep their Go values: the text of a member value (a
quoted string, a timestamp, base64 for bytes, `null` for a nil slice) and its
parsing are not modelled. -/
def encodeFields (fs : List Field) : List (String × GoValue) :=
  (fs.filter fun f => !(f.omitempty && f.value.isEmpty)).map fun f => (f.name, f.value)

/-- The keys of an encoded form. -/
def encodedKeys (obj : List (String × GoValue)) : List String := obj.map Prod.fst

/-- Modelled from the spec: decoding of a string member; an absent key leaves the
zero value, a member of another kind is an error. -/
def decodeStr (obj : List (String × GoValue)) (key : String) : Except GoError String :=
  match obj.lookup key with
  | none => .ok ""
  | some (.str s) => .ok s
  | some _ => .error (errorsNew ("json: cannot unmarshal into field " ++ key))

/-- Modelled from the spec: decoding of a byte-slice member; an absent key leaves
the nil slice. -/
def decodeBytes (obj : List (String × GoValue)) (key : String) : Except GoError Bytes :=
  match obj.lookup key with
  | none => .ok none
  | some (.bytes b) => .ok b
  | some _ => .error (errorsNew ("json: cannot unmarshal into field " ++ key))

/-- Modelled from the spec: decoding of an instant member; an absent key leaves
the zero instant. -/
def decodeTime (obj : List (String × GoValue)) (key : String) : Except GoError Time :=
  match obj.lookup key with
  | none => .ok ⟨0, 0, ""⟩
  | some (.time t) => .ok t
  | some _ => .error (errorsNew ("json: cannot unmarshal into field " ++ key))

/-- Modelled from the spec: decoding of an encoded form into a fresh `Cmd`;
keys that name no field are ignored. -/
def decodeCmd (obj : List (String × GoValue)) : Except GoError Proto.Cmd := do
  let user ← decodeStr obj "User"
  let ts ← decodeTime obj "Ts"
  let agentUuid ← decodeStr obj "AgentUuid"
  let cmd ← decodeStr obj "Cmd"
  let service ← decodeStr obj "Service"
  let data ← decodeBytes obj "Data"
  let relayId ← decodeStr obj "RelayId"
  return { User := user, Ts := ts, AgentUuid := agentUuid, Cmd := cmd, Service := service,
           Data := data, RelayId := relayId }

/-- Modelled from the spec: decoding of an encoded form into a fresh `Reply`;
keys that name no field are ignored. -/
def decodeReply (obj : List (String × GoValue)) : Except GoError Proto.Reply := do
  let cmd ← decodeStr obj "Cmd"
  let error ← decodeStr obj "Error"
  let data ← decodeBytes obj "Data"
  let relayId ← decodeStr obj "RelayId"
  return { Cmd := cmd, Error := error, Data := data, RelayId := relayId }

/-! ## Lemmas on the registry and on `Validate` -/

/-- The registry read, service by service. -/
theorem lookupCommands_eq (s : String) :
    lookupCommands s =
      if s = "" then
        some ["SetLogFile", "SetLogLevel", "SetDataDir", "StartService", "StopService",
          "Status", "Update", "Stop", "Abort"]
      else if s = "qan" then some []
      else if s = "mm" then some ["StartMonitor", "StopMonitor"]
      else none := by
  unfold lookupCommands Commands
  by_cases h1 : s = ""
  · subst h1; rfl
  · by_cases h2 : s = "qan"
    · subst h2; rfl
    · by_cases h3 : s = "mm"
      · subst h3; rfl
      · have e1 : (s == "") = false := beq_false_of_ne h1
        have e2 : (s == "qan") = false := beq_false_of_ne h2
        have e3 : (s == "mm") = false := beq_false_of_ne h3
        simp only [List.lookup, e1, e2, e3, h1, h2, h3, if_false]

/-- An entry of the registry is what the map read returns for its key. -/
theorem lookupCommands_of_mem (s : String) (cmds : List String)
    (h : (s, cmds) ∈ Commands) : lookupCommands s = some cmds := by
  simp only [Commands, List.mem_cons, Prod.mk.injEq, List.not_mem_nil, or_false] at h
  rcases h with ⟨rfl, rfl⟩ | ⟨rfl, rfl⟩ | ⟨rfl, rfl⟩ <;> rfl

/-- The loop of `Validate` finds the command exactly when it is in the list. -/
theorem validCmdLoop_iff (c : String) (l : List String) :
    validCmdLoop c l = true ↔ c ∈ l := by
  induction l with
  | nil => simp [validCmdLoop]
  | cons v rest ih =>
    simp only [validCmdLoop, List.mem_cons]
    split_ifs with h
    · simp [h]
    · simp [h, ih]

/-- `Validate` returns nil exactly when the service is known and lists the command. -/
theorem Validate_eq_none_iff (cmd : Cmd) :
    cmd.Validate = none ↔
      ∃ cmds, lookupCommands cmd.Service = some cmds ∧ cmd.Cmd ∈ cmds := by
  unfold Cmd.Validate
  cases h : lookupCommands cmd.Service with
  | none => simp
  | some cmds =>
    by_cases hv : validCmdLoop cmd.Cmd cmds = true
    · have := (validCmdLoop_iff _ _).1 hv
      simp [hv, this]
    · have hn : cmd.Cmd ∉ cmds := fun hm => hv ((validCmdLoop_iff _ _).2 hm)
      simp [hv, hn]

/-- A known service and a command outside its list give the second error of `Validate`. -/
theorem Validate_of_not_mem (cmd : Cmd) (cmds : List String)
    (hk : lookupCommands cmd.Service = some cmds) (hc : cmd.Cmd ∉ cmds) :
    cmd.Validate =
      some (errorsNew ("Invalid command for " ++ cmd.Service ++ ": " ++ cmd.Cmd)) := by
  have hv : validCmdLoop cmd.Cmd cmds = false := by
    cases hb : validCmdLoop cmd.Cmd cmds with
    | false => rfl
    | true => exact absurd ((validCmdLoop_iff _ _).1 hb) hc
  simp [Cmd.Validate, hk, hv]

/-- The two message formats of `Validate` differ at their ninth character. -/
theorem invalidCommand_ne_invalidService (s c s' : String) :
    "Invalid command for " ++ s ++ ": " ++ c ≠ "Invalid service: " ++ s' := by
  intro h
  have hd := congrArg String.data h
  simp only [String.data_append, List.append_assoc] at hd
  have h8 := congrArg (fun l => l.get? 8) hd
  revert h8
  simp

/-- The result of `Reply`, case by case on the payload and on the encoder. -/
theorem Reply_eq {α : Type} (marshal : α → Except GoError (List UInt8))
    (cmd : Cmd) (err : Option GoError) (data : Option α) :
    cmd.Reply marshal err data =
      match data with
      | none => .ok ⟨cmd.Cmd, replyErrorText err, none, cmd.RelayId⟩
      | some d =>
        match marshal d with
        | .ok b => .ok ⟨cmd.Cmd, replyErrorText err, some b, cmd.RelayId⟩
        | .error e => .error e := by
  cases err <;> cases data <;> simp only [Cmd.Reply, replyErrorText]
  all_goals (split <;> simp_all)

/-! ## Validation against the registry -/

/-- C1: `Validate` returns nil if and only if (Service, Cmd) is one of the eleven
accepted pairs (nine agent commands under service "", two under "mm"), and it
returns a non-nil error for every other pair of strings. -/
theorem Validate_nil_iff_accepted (cmd : Cmd) :
    (cmd.Validate = none ↔ (cmd.Service, cmd.Cmd) ∈ acceptedPairs) ∧
    ((∃ e, cmd.Validate = some e) ↔ (cmd.Service, cmd.Cmd) ∉ acceptedPairs) ∧
    acceptedPairs.length = 11 ∧ acceptedPairs.Nodup := by
  have key : cmd.Validate = none ↔ (cmd.Service, cmd.Cmd) ∈ acceptedPairs := by
    rw [Validate_eq_none_iff, lookupCommands_eq]
    by_cases h1 : cmd.Service = ""
    · simp [h1, acceptedPairs]
    · by_cases h2 : cmd.Service = "qan"
      · simp [h2, acceptedPairs]
      · by_cases h3 : cmd.Service = "mm"
        · simp [h3, acceptedPairs]
        · simp [h1, h2, h3, acceptedPairs]
  refine ⟨key, ?_, rfl, by decide⟩
  rw [← key]
  cases cmd.Validate <;> simp

/-- C2: when Service is none of "", "mm", "qan" it is not a key of the registry,
and `Validate` fails with the message "Invalid service: " followed by the
service, whatever the command is. -/
theorem Validate_unknown_service (cmd : Cmd)
    (h : cmd.Service ≠ "" ∧ cmd.Service ≠ "mm" ∧ cmd.Service ≠ "qan") :
    cmd.Service ∉ Commands.map Prod.fst ∧
    cmd.Validate = some (errorsNew ("Invalid service: " ++ cmd.Service)) ∧
    ∀ c : String,
      ({ cmd with Cmd := c }).Validate = some (errorsNew ("Invalid service: " ++ cmd.Service)) := by
  obtain ⟨h1, h2, h3⟩ := h
  have hl : lookupCommands cmd.Service = none := by
    rw [lookupCommands_eq]; simp [h1, h2, h3]
  refine ⟨?_, ?_, ?_⟩
  · simp [Commands, h1, h2, h3]
  · simp [Cmd.Validate, hl]
  · intro c
    simp [Cmd.Validate, hl]

/-- Witness of C2 at service "nope" and command "Status". -/
theorem Validate_unknown_service_witness :
    ("nope" ≠ "" ∧ "nope" ≠ "mm" ∧ "nope" ≠ "qan") ∧
    (sampleCmd "nope" "Status" "R1").Validate = some (errorsNew "Invalid service: nope") ∧
    (sampleCmd "nope" "no such command" "R1").Validate
      = some (errorsNew "Invalid service: nope") :=
  ⟨by decide,
   (Validate_unknown_service (sampleCmd "nope" "Status" "R1") (by decide)).2.1,
   (Validate_unknown_service (sampleCmd "nope" "Status" "R1") (by decide)).2.2 "no such command"⟩

/-- C3: for a service that is a key of the registry and a command that is not in
its list, `Validate` fails with the message "Invalid command for " service ": "
command, which is never a message of the form "Invalid service: ...". -/
theorem Validate_unknown_command (cmd : Cmd) (cmds : List String)
    (hk : (cmd.Service, cmds) ∈ Commands) (hc : cmd.Cmd ∉ cmds) :
    cmd.Validate =
      some (errorsNew ("Invalid command for " ++ cmd.Service ++ ": " ++ cmd.Cmd)) ∧
    ∀ s : String, cmd.Validate ≠ some (errorsNew ("Invalid service: " ++ s)) := by
  have hv := Validate_of_not_mem cmd cmds (lookupCommands_of_mem _ _ hk) hc
  refine ⟨hv, ?_⟩
  intro s hs
  rw [hv] at hs
  simp only [errorsNew, Option.some.injEq, GoError.mk.injEq] at hs
  exact invalidCommand_ne_invalidService _ _ _ hs

/-- Witness of C3 at service "mm" and command "Status". -/
theorem Validate_unknown_command_witness :
    (("mm", ["StartMonitor", "StopMonitor"]) ∈ Commands ∧
      "Status" ∉ ["StartMonitor", "StopMonitor"]) ∧
    (sampleCmd "mm" "Status" "R1").Validate
      = some (errorsNew "Invalid command for mm: Status") :=
  ⟨⟨by decide, by decide⟩,
   (Validate_unknown_command (sampleCmd "mm" "Status" "R1") ["StartMonitor", "StopMonitor"]
      (by decide) (by decide)).1⟩

/-- C4: under the known service "qan" every command string is rejected, with the
message "Invalid command for qan: " followed by the command, never with a
message of the form "Invalid service: ...". -/
theorem Validate_qan_rejects_all (cmd : Cmd) (h : cmd.Service = "qan") :
    cmd.Validate = some (errorsNew ("Invalid command for qan: " ++ cmd.Cmd)) ∧
    ∀ s : String, cmd.Validate ≠ some (errorsNew ("Invalid service: " ++ s)) := by
  have hv : cmd.Validate = some (errorsNew ("Invalid command for qan: " ++ cmd.Cmd)) := by
    have := Validate_of_not_mem cmd [] (by rw [h]; rfl) (by simp)
    rw [this, h]; rfl
  refine ⟨hv, ?_⟩
  intro s hs
  rw [hv] at hs
  simp only [errorsNew, Option.some.injEq, GoError.mk.injEq] at hs
  exact invalidCommand_ne_invalidService "qan" _ _ hs

/-- Witness of C4 at the empty command and at a command of service "mm". -/
theorem Validate_qan_rejects_all_witness :
    (sampleCmd "qan" "" "R1").Service = "qan" ∧
    (sampleCmd "qan" "" "R1").Validate = some (errorsNew "Invalid command for qan: ") ∧
    (sampleCmd "qan" "StartMonitor" "R1").Validate
      = some (errorsNew "Invalid command for qan: StartMonitor") :=
  ⟨rfl,
   (Validate_qan_rejects_all (sampleCmd "qan" "" "R1") rfl).1,
   (Validate_qan_rejects_all (sampleCmd "qan" "StartMonitor" "R1") rfl).1⟩

/-- C5: a command registered under service `s` is accepted under `s` and, under
every other known service, rejected with the message "Invalid command for "
service ": " command; the command lists of the registry are pairwise disjoint. -/
theorem Validate_only_under_own_service (cmd : Cmd) (s : String) (cmds : List String)
    (hreg : (s, cmds) ∈ Commands) (hc : cmd.Cmd ∈ cmds)
    (hs : cmd.Service ∈ Commands.map Prod.fst) :
    (cmd.Service = s → cmd.Validate = none) ∧
    (cmd.Service ≠ s →
      cmd.Validate =
        some (errorsNew ("Invalid command for " ++ cmd.Service ++ ": " ++ cmd.Cmd))) ∧
    Commands.Pairwise (fun a b => List.Disjoint a.2 b.2) := by
  obtain ⟨u, t, a, c, sv, d, r⟩ := cmd
  refine ⟨?_, ?_, by simp [Commands, List.Disjoint]⟩
  · rintro rfl
    simp only [Commands, List.mem_cons, Prod.mk.injEq, List.not_mem_nil, or_false] at hreg
    rcases hreg with ⟨rfl, rfl⟩ | ⟨rfl, rfl⟩ | ⟨rfl, rfl⟩
    · simp only [List.mem_cons, List.not_mem_nil, or_false] at hc
      rcases hc with rfl | rfl | rfl | rfl | rfl | rfl | rfl | rfl | rfl <;> rfl
    · simp at hc
    · simp only [List.mem_cons, List.not_mem_nil, or_false] at hc
      rcases hc with rfl | rfl <;> rfl
  · intro hne
    simp only [Commands, List.map, List.mem_cons, List.not_mem_nil, or_false] at hs
    simp only [Commands, List.mem_cons, Prod.mk.injEq, List.not_mem_nil, or_false] at hreg
    rcases hreg with ⟨rfl, rfl⟩ | ⟨rfl, rfl⟩ | ⟨rfl, rfl⟩
    · simp only [List.mem_cons, List.not_mem_nil, or_false] at hc
      rcases hs with rfl | rfl | rfl
      · exact absurd rfl hne
      · rcases hc with rfl | rfl | rfl | rfl | rfl | rfl | rfl | rfl | rfl <;> rfl
      · rcases hc with rfl | rfl | rfl | rfl | rfl | rfl | rfl | rfl | rfl <;> rfl
    · simp at hc
    · simp only [List.mem_cons, List.not_mem_nil, or_false] at hc
      rcases hs with rfl | rfl | rfl
      · rcases hc with rfl | rfl <;> rfl
      · rcases hc with rfl | rfl <;> rfl
      · exact absurd rfl hne

/-- Witness of C5: "StartMonitor" is accepted under "mm", and "StartService",
registered under "", is rejected under "mm". -/
theorem Validate_only_under_own_service_witness :
    (("mm", ["StartMonitor", "StopMonitor"]) ∈ Commands ∧
      "StartMonitor" ∈ ["StartMonitor", "StopMonitor"] ∧
      "mm" ∈ Commands.map Prod.fst) ∧
    (sampleCmd "mm" "StartMonitor" "R1").Validate = none ∧
    (sampleCmd "mm" "StartService" "R1").Validate
      = some (errorsNew "Invalid command for mm: StartService") :=
  ⟨⟨by decide, by decide, by decide⟩,
   (Validate_only_under_own_service (sampleCmd "mm" "StartMonitor" "R1") "mm"
      ["StartMonitor", "StopMonitor"] (by decide) (by decide) (by decide)).1 rfl,
   (Validate_only_under_own_service (sampleCmd "mm" "StartService" "R1") ""
      ["SetLogFile", "SetLogLevel", "SetDataDir", "StartService", "StopService",
        "Status", "Update", "Stop", "Abort"]
      (by decide) (by decide) (by decide)).2.1 (by decide)⟩

/-- C6: matching is exact and case-sensitive: a registered pair is accepted,
while the same service with the all-lowercase or the all-uppercase form of the
command is rejected. -/
theorem Validate_case_sensitive (cmd : Cmd) (cmds : List String)
    (hreg : (cmd.Service, cmds) ∈ Commands) (hc : cmd.Cmd ∈ cmds) :
    cmd.Validate = none ∧
    ({ cmd with Cmd := lowerForm cmd.Cmd }).Validate =
      some (errorsNew ("Invalid command for " ++ cmd.Service ++ ": " ++ lowerForm cmd.Cmd)) ∧
    ({ cmd with Cmd := upperForm cmd.Cmd }).Validate =
      some (errorsNew ("Invalid command for " ++ cmd.Service ++ ": " ++ upperForm cmd.Cmd)) := by
  obtain ⟨u, t, a, c, s, d, r⟩ := cmd
  simp only [Commands, List.mem_cons, Prod.mk.injEq, List.not_mem_nil, or_false] at hreg
  rcases hreg with ⟨rfl, rfl⟩ | ⟨rfl, rfl⟩ | ⟨rfl, rfl⟩
  · simp only [List.mem_cons, List.not_mem_nil, or_false] at hc
    rcases hc with rfl | rfl | rfl | rfl | rfl | rfl | rfl | rfl | rfl <;> exact ⟨rfl, rfl, rfl⟩
  · simp at hc
  · simp only [List.mem_cons, List.not_mem_nil, or_false] at hc
    rcases hc with rfl | rfl <;> exact ⟨rfl, rfl, rfl⟩

/-- Witness of C6: service "" accepts "Status" and rejects "status" and "STATUS". -/
theorem Validate_case_sensitive_witness :
    (("", ["SetLogFile", "SetLogLevel", "SetDataDir", "StartService", "StopService",
        "Status", "Update", "Stop", "Abort"]) ∈ Commands ∧
      "Status" ∈ ["SetLogFile", "SetLogLevel", "SetDataDir", "StartService", "StopService",
        "Status", "Update", "Stop", "Abort"]) ∧
    (sampleCmd "" "Status" "R1").Validate = none ∧
    (sampleCmd "" "status" "R1").Validate = some (errorsNew "Invalid command for : status") ∧
    (sampleCmd "" "STATUS" "R1").Validate = some (errorsNew "Invalid command for : STATUS") :=
  ⟨⟨by decide, by decide⟩,
   Validate_case_sensitive (sampleCmd "" "Status" "R1")
     ["SetLogFile", "SetLogLevel", "SetDataDir", "StartService", "StopService",
       "Status", "Update", "Stop", "Abort"] (by decide) (by decide)⟩

/-! ## Reply construction -/

/-- C7: whenever the payload is nil or the encoder accepts it, `Reply` returns a
reply whose Cmd and RelayId are those of the receiver, for every error value
and whether or not the receiver is valid. -/
theorem Reply_copies_cmd_and_relayId {α : Type} (marshal : α → Except GoError (List UInt8))
    (cmd : Cmd) (err : Option GoError) (data : Option α)
    (hd : ∀ d, data = some d → ∃ b, marshal d = .ok b) :
    ∃ r, cmd.Reply marshal err data = .ok r ∧ r.Cmd = cmd.Cmd ∧ r.RelayId = cmd.RelayId := by
  rw [Reply_eq]
  cases data with
  | none => exact ⟨_, rfl, rfl, rfl⟩
  | some d =>
    obtain ⟨b, hb⟩ := hd d rfl
    simp only [hb]
    exact ⟨_, rfl, rfl, rfl⟩

/-- Witness of C7 at a receiver that `Validate` rejects, a non-nil error and a
non-nil payload. -/
theorem Reply_copies_cmd_and_relayId_witness :
    (∀ d, some sampleStatus = some d → ∃ b, sampleMarshalStatusData d = .ok b) ∧
    (sampleCmd "nope" "Frobnicate" "R7").Validate ≠ none ∧
    ∃ r, (sampleCmd "nope" "Frobnicate" "R7").Reply sampleMarshalStatusData
          (some (errorsNew "boom")) (some sampleStatus) = .ok r ∧
      r.Cmd = "Frobnicate" ∧ r.RelayId = "R7" :=
  ⟨fun d _ => ⟨_, rfl⟩, by decide,
   Reply_copies_cmd_and_relayId sampleMarshalStatusData (sampleCmd "nope" "Frobnicate" "R7")
     (some (errorsNew "boom")) (some sampleStatus) (fun d _ => ⟨_, rfl⟩)⟩

/-- C8: every reply that `Reply` returns has Error equal to `err.Error()` when
`err` is non-nil and equal to the empty string when `err` is nil; and `Reply`
does return a reply whenever the payload is nil or the encoder accepts it. -/
theorem Reply_error_text {α : Type} (marshal : α → Except GoError (List UInt8))
    (cmd : Cmd) (err : Option GoError) (data : Option α) :
    (∀ r, cmd.Reply marshal err data = .ok r →
      (err = none → r.Error = "") ∧ (∀ e, err = some e → r.Error = e.Error)) ∧
    ((∀ d, data = some d → ∃ b, marshal d = .ok b) →
      ∃ r, cmd.Reply marshal err data = .ok r) := by
  rw [Reply_eq]
  constructor
  · intro r hr
    have hE : r.Error = replyErrorText err := by
      cases data with
      | none =>
        simp only [Except.ok.injEq] at hr
        rw [← hr]
      | some d =>
        cases hm : marshal d with
        | error e => simp [hm] at hr
        | ok b =>
          simp only [hm, Except.ok.injEq] at hr
          rw [← hr]
    refine ⟨?_, ?_⟩
    · rintro rfl; exact hE
    · rintro e rfl; exact hE
  · intro hd
    cases data with
    | none => exact ⟨_, rfl⟩
    | some d =>
      obtain ⟨b, hb⟩ := hd d rfl
      simp only [hb]
      exact ⟨_, rfl⟩

/-- Witness of C8: an error with message "boom" yields Error "boom", and a nil
error yields the empty Error. -/
theorem Reply_error_text_witness :
    (∀ d, (none : Option StatusData) = some d → ∃ b, sampleMarshalStatusData d = .ok b) ∧
    (∃ r, (sampleCmd "" "Status" "R1").Reply sampleMarshalStatusData
            (some (errorsNew "boom")) none = .ok r ∧ r.Error = "boom") ∧
    (∃ r, (sampleCmd "" "Status" "R1").Reply sampleMarshalStatusData
            none (some sampleStatus) = .ok r ∧ r.Error = "") := by
  refine ⟨fun d h => (nomatch h), ?_, ?_⟩
  · obtain ⟨r, hr⟩ :=
      (Reply_error_text sampleMarshalStatusData (sampleCmd "" "Status" "R1")
        (some (errorsNew "boom")) none).2 (fun d h => (nomatch h))
    exact ⟨r, hr,
      ((Reply_error_text sampleMarshalStatusData (sampleCmd "" "Status" "R1")
        (some (errorsNew "boom")) none).1 r hr).2 _ rfl⟩
  · obtain ⟨r, hr⟩ :=
      (Reply_error_text sampleMarshalStatusData (sampleCmd "" "Status" "R1")
        none (some sampleStatus)).2 (fun d _ => ⟨_, rfl⟩)
    exact ⟨r, hr,
      ((Reply_error_text sampleMarshalStatusData (sampleCmd "" "Status" "R1")
        none (some sampleStatus)).1 r hr).1 rfl⟩

/-- C9, at the input where it fails: a non-nil error whose message is the empty
string yields a reply with the empty Error, the very reply a nil error yields. -/
theorem Reply_empty_message_reads_as_success :
    (some (errorsNew "") : Option GoError) ≠ none ∧
    (sampleCmd "" "Status" "R1").Reply sampleMarshalStatusData (some (errorsNew "")) none
      = .ok { Cmd := "Status", Error := "", Data := none, RelayId := "R1" } ∧
    (sampleCmd "" "Status" "R1").Reply sampleMarshalStatusData (some (errorsNew "")) none
      = (sampleCmd "" "Status" "R1").Reply sampleMarshalStatusData none none :=
  ⟨by simp, rfl, rfl⟩

/-- C10: when the encoder accepts a non-nil payload, `Reply` returns a reply
whose Data is exactly the encoding; in particular a receiver with RelayId "R1"
and Cmd "Status" and a nil error give the reply with Cmd "Status", RelayId "R1",
the empty Error and the encoding as Data. -/
theorem Reply_data_is_encoding {α : Type} (marshal : α → Except GoError (List UInt8))
    (cmd : Cmd) (err : Option GoError) (d : α) (b : List UInt8)
    (h : marshal d = .ok b) :
    (∃ r, cmd.Reply marshal err (some d) = .ok r ∧ r.Data = some b) ∧
    (cmd.RelayId = "R1" → cmd.Cmd = "Status" → err = none →
      cmd.Reply marshal err (some d)
        = .ok { Cmd := "Status", Error := "", Data := some b, RelayId := "R1" }) := by
  have hR : cmd.Reply marshal err (some d)
      = .ok ⟨cmd.Cmd, replyErrorText err, some b, cmd.RelayId⟩ := by
    rw [Reply_eq]
    simp only [h]
  refine ⟨⟨_, hR, rfl⟩, ?_⟩
  rintro hr hc rfl
  rw [hR, hr, hc]
  rfl

/-- Witness of C10 at the sample `StatusData` and the sample encoder. -/
theorem Reply_data_is_encoding_witness :
    sampleMarshalStatusData sampleStatus = .ok (utf8Bytes
      "\x7b\"Agent\":\"Ready\",\"CmdQueue\":[\"Stop\"],\"Service\":\x7b\"mm\":\"Running\"\x7d\x7d") ∧
    (sampleCmd "" "Status" "R1").Reply sampleMarshalStatusData none (some sampleStatus)
      = .ok { Cmd := "Status", Error := "", RelayId := "R1", Data := some (utf8Bytes
      "\x7b\"Agent\":\"Ready\",\"CmdQueue\":[\"Stop\"],\"Service\":\x7b\"mm\":\"Running\"\x7d\x7d") } :=
  ⟨rfl,
   (Reply_data_is_encoding sampleMarshalStatusData (sampleCmd "" "Status" "R1") none
      sampleStatus _ rfl).2 rfl rfl rfl⟩

/-- C11: with a nil payload `Reply` returns a reply whose Data is nil, and the
result is the same for every encoder, so the encoder takes no part in it; a
receiver with RelayId "R1" and Cmd "Status" and an error with message "boom"
give exactly the reply with Cmd "Status", Error "boom", nil Data, RelayId "R1". -/
theorem Reply_nil_data {α : Type} (marshal other : α → Except GoError (List UInt8))
    (cmd : Cmd) (err : Option GoError) :
    (∃ r, cmd.Reply marshal err none = .ok r ∧ r.Data = none) ∧
    cmd.Reply marshal err none = cmd.Reply other err none ∧
    cmd.Reply marshal err none = cmd.Reply (fun _ : α => .error (errorsNew "refused")) err none ∧
    (cmd.RelayId = "R1" → cmd.Cmd = "Status" → err = some (errorsNew "boom") →
      cmd.Reply marshal err none
        = .ok { Cmd := "Status", Error := "boom", Data := none, RelayId := "R1" }) := by
  have hR : ∀ m : α → Except GoError (List UInt8),
      cmd.Reply m err none = .ok ⟨cmd.Cmd, replyErrorText err, none, cmd.RelayId⟩ :=
    fun m => Reply_eq m cmd err none
  refine ⟨⟨_, hR marshal, rfl⟩, ?_, ?_, ?_⟩
  · rw [hR marshal, hR other]
  · rw [hR marshal, hR]
  · rintro hr hc rfl
    rw [hR marshal, hr, hc]
    rfl

/-- Witness of C11 at the sample receiver, with the encoder that refuses the
channel payload. -/
theorem Reply_nil_data_witness :
    ((sampleCmd "" "Status" "R1").RelayId = "R1" ∧ (sampleCmd "" "Status" "R1").Cmd = "Status") ∧
    (sampleCmd "" "Status" "R1").Reply sampleMarshal (some (errorsNew "boom")) none
      = .ok { Cmd := "Status", Error := "boom", Data := none, RelayId := "R1" } :=
  ⟨⟨rfl, rfl⟩,
   (Reply_nil_data sampleMarshal sampleMarshal (sampleCmd "" "Status" "R1")
      (some (errorsNew "boom"))).2.2.2 rfl rfl rfl⟩

/-- C12: `Reply` ends in the fatal exit exactly when the payload is non-nil and
the encoder returns an error for it, the fatal error being the encoder's; it
returns a reply exactly when the payload is nil or the encoder succeeds. -/
theorem Reply_fatal_iff {α : Type} (marshal : α → Except GoError (List UInt8))
    (cmd : Cmd) (err : Option GoError) (data : Option α) :
    (∀ e, cmd.Reply marshal err data = .error e ↔
      ∃ d, data = some d ∧ marshal d = .error e) ∧
    ((∃ r, cmd.Reply marshal err data = .ok r) ↔
      data = none ∨ ∃ d b, data = some d ∧ marshal d = .ok b) ∧
    ((∃ e, cmd.Reply marshal err data = .error e) ↔
      ¬ ∃ r, cmd.Reply marshal err data = .ok r) := by
  rw [Reply_eq]
  cases data with
  | none => simp
  | some d =>
    cases hm : marshal d with
    | error e => simp [hm]
    | ok b => simp [hm]

/-- C12 at concrete inputs: the channel payload, which the sample encoder
refuses, ends `Reply` in the fatal exit with the encoder's error, while a nil
payload and the sample status give a reply. -/
theorem Reply_fatal_iff_witness :
    (sampleCmd "" "Status" "R1").Reply sampleMarshal none (some .channel)
      = .error (errorsNew "json: unsupported type: chan int") ∧
    (¬ ∃ r, (sampleCmd "" "Status" "R1").Reply sampleMarshal none (some .channel) = .ok r) ∧
    (∃ r, (sampleCmd "" "Status" "R1").Reply sampleMarshal none none = .ok r) ∧
    (∃ r, (sampleCmd "" "Status" "R1").Reply sampleMarshal none
      (some (.status sampleStatus)) = .ok r) :=
  ⟨((Reply_fatal_iff sampleMarshal (sampleCmd "" "Status" "R1") none (some .channel)).1 _).2
      ⟨_, rfl, rfl⟩,
   ((Reply_fatal_iff sampleMarshal (sampleCmd "" "Status" "R1") none (some .channel)).2.2).1
      ⟨_, rfl⟩,
   ((Reply_fatal_iff sampleMarshal (sampleCmd "" "Status" "R1") none none).2.1).2 (Or.inl rfl),
   ((Reply_fatal_iff sampleMarshal (sampleCmd "" "Status" "R1") none
      (some (.status sampleStatus))).2.1).2 (Or.inr ⟨_, _, rfl, rfl⟩)⟩

/-- C13: two receivers that agree on Service and Cmd get the same result from
`Validate`, whatever their User, Ts, AgentUuid, Data and RelayId; run on a
store, `Validate` returns that result and leaves the registry and the receiver
as they were. -/
theorem Validate_depends_on_service_and_cmd_only (a b : Cmd)
    (hs : a.Service = b.Service) (hc : a.Cmd = b.Cmd) :
    a.Validate = b.Validate ∧
    (validateStore ⟨Commands, a⟩).1 = a.Validate ∧
    (∀ reg : List (String × List String),
      (validateStore ⟨reg, a⟩).1 = (validateStore ⟨reg, b⟩).1) ∧
    (∀ st : Store, (validateStore st).2 = st) := by
  refine ⟨?_, ?_, ?_, ?_⟩
  · simp only [Cmd.Validate, hs, hc]
  · simp only [validateStore, Cmd.Validate, lookupCommands]
    cases Commands.lookup a.Service with
    | none => rfl
    | some cmds => dsimp only; split <;> rfl
  · intro reg
    simp only [validateStore, hs, hc]
    cases reg.lookup b.Service with
    | none => rfl
    | some cmds => dsimp only; split <;> rfl
  · intro st
    simp only [validateStore]
    cases st.Commands.lookup st.cmd.Service with
    | none => rfl
    | some cmds => dsimp only; split <;> rfl

/-- Witness of C13: two receivers with Service "mm" and Cmd "Status" that differ
in every other field. -/
theorem Validate_depends_on_service_and_cmd_only_witness :
    ((sampleCmd "mm" "Status" "R1").Service =
        ({ User := "root", Ts := ⟨7, 9, "CET"⟩, AgentUuid := "ffff", Cmd := "Status",
           Service := "mm", Data := some [1, 2], RelayId := "R2" } : Cmd).Service ∧
      (sampleCmd "mm" "Status" "R1").Cmd =
        ({ User := "root", Ts := ⟨7, 9, "CET"⟩, AgentUuid := "ffff", Cmd := "Status",
           Service := "mm", Data := some [1, 2], RelayId := "R2" } : Cmd).Cmd) ∧
    (sampleCmd "mm" "Status" "R1").Validate =
      ({ User := "root", Ts := ⟨7, 9, "CET"⟩, AgentUuid := "ffff", Cmd := "Status",
         Service := "mm", Data := some [1, 2], RelayId := "R2" } : Cmd).Validate :=
  ⟨⟨rfl, rfl⟩,
   (Validate_depends_on_service_and_cmd_only (sampleCmd "mm" "Status" "R1")
      { User := "root", Ts := ⟨7, 9, "CET"⟩, AgentUuid := "ffff", Cmd := "Status",
        Service := "mm", Data := some [1, 2], RelayId := "R2" } rfl rfl).1⟩

/-! ## Further lemmas -/

/-- The two ways in which `Validate` returns an error. -/
theorem Validate_some_cases (cmd : Cmd) (e : GoError) (h : cmd.Validate = some e) :
    (lookupCommands cmd.Service = none ∧
      e = errorsNew ("Invalid service: " ++ cmd.Service)) ∨
    (∃ cmds, lookupCommands cmd.Service = some cmds ∧ cmd.Cmd ∉ cmds ∧
      e = errorsNew ("Invalid command for " ++ cmd.Service ++ ": " ++ cmd.Cmd)) := by
  cases hl : lookupCommands cmd.Service with
  | none =>
    left
    simp only [Cmd.Validate, hl, Option.some.injEq] at h
    exact ⟨rfl, h.symm⟩
  | some cmds =>
    right
    by_cases hm : cmd.Cmd ∈ cmds
    · have : cmd.Validate = none := (Validate_eq_none_iff cmd).2 ⟨cmds, hl, hm⟩
      rw [this] at h
      exact absurd h (by simp)
    · have := Validate_of_not_mem cmd cmds hl hm
      rw [this, Option.some.injEq] at h
      exact ⟨cmds, rfl, hm, h.symm⟩

/-- The services the registry knows. -/
theorem lookupCommands_some_service (s : String) (cmds : List String)
    (h : lookupCommands s = some cmds) : s = "" ∨ s = "qan" ∨ s = "mm" := by
  rw [lookupCommands_eq] at h
  by_cases h1 : s = ""
  · exact Or.inl h1
  · by_cases h2 : s = "qan"
    · exact Or.inr (Or.inl h2)
    · by_cases h3 : s = "mm"
      · exact Or.inr (Or.inr h3)
      · simp [h1, h2, h3] at h

/-- Appending to the same string on the left is injective. -/
theorem append_left_cancel (p a b : String) (h : p ++ a = p ++ b) : a = b := by
  have hd := congrArg String.data h
  simp only [String.data_append] at hd
  exact String.ext (List.append_cancel_left hd)

/-- Among known services, the text after "Invalid command for " determines the
service and the command. -/
theorem invalidCommand_injective (s c s' c' : String)
    (hs : s = "" ∨ s = "qan" ∨ s = "mm") (hs' : s' = "" ∨ s' = "qan" ∨ s' = "mm")
    (h : "Invalid command for " ++ s ++ ": " ++ c = "Invalid command for " ++ s' ++ ": " ++ c') :
    s = s' ∧ c = c' := by
  have hd := congrArg String.data h
  simp only [String.data_append, List.append_assoc] at hd
  have hd2 := List.append_cancel_left hd
  rcases hs with rfl | rfl | rfl <;> rcases hs' with rfl | rfl | rfl
  · exact ⟨rfl, String.ext (List.append_cancel_left hd2)⟩
  · exact absurd (congrArg (fun l => l.get? 0) hd2) (by simp)
  · exact absurd (congrArg (fun l => l.get? 0) hd2) (by simp)
  · exact absurd (congrArg (fun l => l.get? 0) hd2) (by simp)
  · exact ⟨rfl, String.ext (List.append_cancel_left (List.append_cancel_left hd2))⟩
  · exact absurd (congrArg (fun l => l.get? 0) hd2) (by simp)
  · exact absurd (congrArg (fun l => l.get? 0) hd2) (by simp)
  · exact absurd (congrArg (fun l => l.get? 0) hd2) (by simp)
  · exact ⟨rfl, String.ext (List.append_cancel_left (List.append_cancel_left hd2))⟩

/-- An error returned by `Validate` has a non-empty message. -/
theorem Validate_error_nonempty (cmd : Cmd) (e : GoError) (h : cmd.Validate = some e) :
    e.Error ≠ "" := by
  intro he
  rcases Validate_some_cases cmd e h with ⟨_, rfl⟩ | ⟨cmds, _, _, rfl⟩
  · have hd := congrArg String.data he
    simp [errorsNew] at hd
  · have hd := congrArg String.data he
    simp [errorsNew] at hd

/-- The fields of a reply that `Reply` returns. -/
theorem Reply_ok_fields {α : Type} (marshal : α → Except GoError (List UInt8))
    (cmd : Cmd) (err : Option GoError) (data : Option α) (r : Reply)
    (h : cmd.Reply marshal err data = .ok r) :
    r.Cmd = cmd.Cmd ∧ r.Error = replyErrorText err ∧ r.RelayId = cmd.RelayId ∧
    ((data = none ∧ r.Data = none) ∨
      ∃ d b, data = some d ∧ marshal d = .ok b ∧ r.Data = some b) := by
  rw [Reply_eq] at h
  cases data with
  | none =>
    simp only [Except.ok.injEq] at h
    subst h
    exact ⟨rfl, rfl, rfl, Or.inl ⟨rfl, rfl⟩⟩
  | some d =>
    cases hm : marshal d with
    | error e => simp [hm] at h
    | ok b =>
      simp only [hm, Except.ok.injEq] at h
      subst h
      exact ⟨rfl, rfl, rfl, Or.inr ⟨d, b, rfl, hm, rfl⟩⟩

/-! ## String rendering, and validation composed with reply construction -/

/-- C15: `String` returns "Cmd:" Cmd " Service:" Service " User:" User " Ts:"
followed by the textual form of Ts, in that order, and two receivers that agree
on Cmd, Service, User and Ts render alike whatever their AgentUuid, Data and
RelayId. -/
theorem String_format (timeString : Time → String) (cmd other : Cmd)
    (hc : other.Cmd = cmd.Cmd) (hs : other.Service = cmd.Service)
    (hu : other.User = cmd.User) (ht : other.Ts = cmd.Ts) :
    cmd.String timeString =
      "Cmd:" ++ cmd.Cmd ++ " Service:" ++ cmd.Service ++ " User:" ++ cmd.User ++ " Ts:"
        ++ timeString cmd.Ts ∧
    other.String timeString = cmd.String timeString := by
  refine ⟨rfl, ?_⟩
  simp only [Cmd.String, hc, hs, hu, ht]

/-- Witness of C15: the rendering of a sample receiver, and of one that differs
from it in AgentUuid, Data and RelayId. -/
theorem String_format_witness :
    (sampleCmd "mm" "StartMonitor" "R1").String sampleTimeString
      = "Cmd:StartMonitor Service:mm User:daniel Ts:1400000000.0 UTC" ∧
    ({ sampleCmd "mm" "StartMonitor" "R1" with
        AgentUuid := "ffff", Data := some [1, 2], RelayId := "R2" } : Cmd).String
        sampleTimeString
      = "Cmd:StartMonitor Service:mm User:daniel Ts:1400000000.0 UTC" := by
  have h := String_format sampleTimeString (sampleCmd "mm" "StartMonitor" "R1")
    { sampleCmd "mm" "StartMonitor" "R1" with
      AgentUuid := "ffff", Data := some [1, 2], RelayId := "R2" } rfl rfl rfl rfl
  have e : (sampleCmd "mm" "StartMonitor" "R1").String sampleTimeString
      = "Cmd:StartMonitor Service:mm User:daniel Ts:1400000000.0 UTC" := by
    rw [h.1]; decide
  exact ⟨e, h.2.trans e⟩

/-- C16: when `Validate` returns the error `e` for a receiver, `Reply` called on
that receiver with `e` and a nil payload returns the reply whose Error is the
message of `e`, which is not empty, whose Data is nil, and whose Cmd and RelayId
are those of the receiver. -/
theorem Reply_of_Validate_error {α : Type} (marshal : α → Except GoError (List UInt8))
    (cmd : Cmd) (e : GoError) (h : cmd.Validate = some e) :
    cmd.Reply marshal (some e) none
      = .ok { Cmd := cmd.Cmd, Error := e.Error, Data := none, RelayId := cmd.RelayId } ∧
    e.Error ≠ "" :=
  ⟨Reply_eq marshal cmd (some e) none, Validate_error_nonempty cmd e h⟩

/-- Witness of C16 at a receiver with the unknown service "nope". -/
theorem Reply_of_Validate_error_witness :
    (sampleCmd "nope" "Status" "R7").Validate = some (errorsNew "Invalid service: nope") ∧
    (sampleCmd "nope" "Status" "R7").Reply sampleMarshal
        (some (errorsNew "Invalid service: nope")) none
      = .ok { Cmd := "Status", Error := "Invalid service: nope", Data := none,
              RelayId := "R7" } ∧
    (errorsNew "Invalid service: nope").Error ≠ "" :=
  ⟨by decide,
   Reply_of_Validate_error sampleMarshal (sampleCmd "nope" "Status" "R7")
     (errorsNew "Invalid service: nope") (by decide)⟩

/-- C17: two receivers that `Validate` rejects with the same error have the same
Service, and also the same Cmd when the service is a key of the registry (the
invalid-command rejection); a message "Invalid command for ..." never equals a
message "Invalid service: ...". -/
theorem Validate_error_identifies_input (a b : Cmd) (e : GoError)
    (ha : a.Validate = some e) (hb : b.Validate = some e) :
    a.Service = b.Service ∧
    (a.Service ∈ Commands.map Prod.fst → a.Cmd = b.Cmd) ∧
    (lookupCommands a.Service = none ↔ e = errorsNew ("Invalid service: " ++ a.Service)) ∧
    (∀ s c s' : String,
      "Invalid command for " ++ s ++ ": " ++ c ≠ "Invalid service: " ++ s') := by
  have key : a.Service = b.Service ∧ (lookupCommands a.Service ≠ none → a.Cmd = b.Cmd) := by
    rcases Validate_some_cases a e ha with ⟨hla, hea⟩ | ⟨ca, hla, _, hea⟩ <;>
      rcases Validate_some_cases b e hb with ⟨hlb, heb⟩ | ⟨cb, hlb, _, heb⟩
    · rw [hea] at heb
      simp only [errorsNew, GoError.mk.injEq] at heb
      exact ⟨append_left_cancel _ _ _ heb, fun hn => absurd hla hn⟩
    · rw [hea] at heb
      simp only [errorsNew, GoError.mk.injEq] at heb
      exact absurd heb.symm (invalidCommand_ne_invalidService _ _ _)
    · rw [hea] at heb
      simp only [errorsNew, GoError.mk.injEq] at heb
      exact absurd heb (invalidCommand_ne_invalidService _ _ _)
    · rw [hea] at heb
      simp only [errorsNew, GoError.mk.injEq] at heb
      have := invalidCommand_injective _ _ _ _ (lookupCommands_some_service _ _ hla)
        (lookupCommands_some_service _ _ hlb) heb
      exact ⟨this.1, fun _ => this.2⟩
  refine ⟨key.1, ?_, ?_, invalidCommand_ne_invalidService⟩
  · intro hmem
    apply key.2
    rw [lookupCommands_eq]
    simp only [Commands, List.map, List.mem_cons, List.not_mem_nil, or_false] at hmem
    rcases hmem with h | h | h <;> rw [h] <;> simp
  · constructor
    · intro hl
      rcases Validate_some_cases a e ha with ⟨_, hea⟩ | ⟨ca, hla, _, _⟩
      · exact hea
      · rw [hl] at hla; exact absurd hla (by simp)
    · intro he
      rcases Validate_some_cases a e ha with ⟨hla, _⟩ | ⟨ca, _, _, hea⟩
      · exact hla
      · rw [he] at hea
        simp only [errorsNew, GoError.mk.injEq] at hea
        exact absurd hea.symm (invalidCommand_ne_invalidService _ _ _)

/-- Witness of C17: two receivers rejected with "Invalid command for mm: Status". -/
theorem Validate_error_identifies_input_witness :
    ((sampleCmd "mm" "Status" "R1").Validate
        = some (errorsNew "Invalid command for mm: Status") ∧
      ({ User := "root", Ts := ⟨7, 9, "CET"⟩, AgentUuid := "ffff", Cmd := "Status",
         Service := "mm", Data := some [1, 2], RelayId := "R2" } : Cmd).Validate
        = some (errorsNew "Invalid command for mm: Status")) ∧
    (sampleCmd "mm" "Status" "R1").Service =
      ({ User := "root", Ts := ⟨7, 9, "CET"⟩, AgentUuid := "ffff", Cmd := "Status",
         Service := "mm", Data := some [1, 2], RelayId := "R2" } : Cmd).Service :=
  ⟨⟨by decide, by decide⟩,
   (Validate_error_identifies_input (sampleCmd "mm" "Status" "R1")
      { User := "root", Ts := ⟨7, 9, "CET"⟩, AgentUuid := "ffff", Cmd := "Status",
        Service := "mm", Data := some [1, 2], RelayId := "R2" }
      (errorsNew "Invalid command for mm: Status") (by decide) (by decide)).1⟩

/-- C18: a receiver whose Cmd is the empty string is rejected under every
service; the zero value of `Cmd` is rejected with "Invalid command for : ", the
invalid-command error for the agent service "", and with no message of the form
"Invalid service: ...". -/
theorem Validate_empty_cmd (cmd : Cmd) (h : cmd.Cmd = "") :
    (∃ e, cmd.Validate = some e) ∧
    zeroCmd.Validate = some (errorsNew "Invalid command for : ") ∧
    (∀ s : String, zeroCmd.Validate ≠ some (errorsNew ("Invalid service: " ++ s))) := by
  have hz : zeroCmd.Validate = some (errorsNew ("Invalid command for " ++ "" ++ ": " ++ "")) :=
    rfl
  refine ⟨?_, rfl, ?_⟩
  · cases hv : cmd.Validate with
    | some e => exact ⟨e, rfl⟩
    | none =>
      obtain ⟨cmds, hl, hm⟩ := (Validate_eq_none_iff cmd).1 hv
      rw [lookupCommands_eq] at hl
      rw [h] at hm
      exfalso
      by_cases h1 : cmd.Service = ""
      · rw [if_pos h1, Option.some.injEq] at hl
        subst hl
        revert hm; decide
      · rw [if_neg h1] at hl
        by_cases h2 : cmd.Service = "qan"
        · rw [if_pos h2, Option.some.injEq] at hl
          subst hl
          simp at hm
        · rw [if_neg h2] at hl
          by_cases h3 : cmd.Service = "mm"
          · rw [if_pos h3, Option.some.injEq] at hl
            subst hl
            revert hm; decide
          · rw [if_neg h3] at hl
            exact absurd hl (by simp)
  · intro s hs
    rw [hz] at hs
    simp only [errorsNew, Option.some.injEq, GoError.mk.injEq] at hs
    exact invalidCommand_ne_invalidService _ _ _ hs

/-- Witness of C18 at the services "", "mm" and "nope". -/
theorem Validate_empty_cmd_witness :
    (sampleCmd "mm" "" "R1").Cmd = "" ∧
    (∃ e, (sampleCmd "" "" "R1").Validate = some e) ∧
    (∃ e, (sampleCmd "mm" "" "R1").Validate = some e) ∧
    (∃ e, (sampleCmd "nope" "" "R1").Validate = some e) :=
  ⟨rfl, (Validate_empty_cmd (sampleCmd "" "" "R1") rfl).1,
   (Validate_empty_cmd (sampleCmd "mm" "" "R1") rfl).1,
   (Validate_empty_cmd (sampleCmd "nope" "" "R1") rfl).1⟩

/-- C19: the Error of a returned reply is the same for every receiver and every
payload, and its Data the same for every receiver and every error; with a
non-nil error and a non-nil payload that the encoder accepts, the reply carries
both the message of the error and the encoding of the payload. -/
theorem Reply_error_and_data_independent {α : Type}
    (marshal : α → Except GoError (List UInt8)) (cmd : Cmd) (e : GoError) (d : α)
    (b : List UInt8) (h : marshal d = .ok b) :
    cmd.Reply marshal (some e) (some d)
      = .ok { Cmd := cmd.Cmd, Error := e.Error, Data := some b, RelayId := cmd.RelayId } ∧
    (∀ (c c' : Cmd) (err : Option GoError) (data data' : Option α) (r r' : Reply),
      c.Reply marshal err data = .ok r → c'.Reply marshal err data' = .ok r' →
        r.Error = r'.Error) ∧
    (∀ (c c' : Cmd) (err err' : Option GoError) (data : Option α) (r r' : Reply),
      c.Reply marshal err data = .ok r → c'.Reply marshal err' data = .ok r' →
        r.Data = r'.Data) := by
  refine ⟨?_, ?_, ?_⟩
  · rw [Reply_eq]
    simp only [h]
    rfl
  · intro c c' err data data' r r' hr hr'
    rw [(Reply_ok_fields marshal c err data r hr).2.1,
      (Reply_ok_fields marshal c' err data' r' hr').2.1]
  · intro c c' err err' data r r' hr hr'
    rcases (Reply_ok_fields marshal c err data r hr).2.2.2 with ⟨hd, h1⟩ | ⟨d1, b1, hd, hm, h1⟩
    · rcases (Reply_ok_fields marshal c' err' data r' hr').2.2.2 with
        ⟨_, h2⟩ | ⟨d2, b2, hd2, _, _⟩
      · rw [h1, h2]
      · rw [hd] at hd2; exact absurd hd2 (by simp)
    · rcases (Reply_ok_fields marshal c' err' data r' hr').2.2.2 with
        ⟨hd2, _⟩ | ⟨d2, b2, hd2, hm2, h2⟩
      · rw [hd] at hd2; exact absurd hd2 (by simp)
      · rw [hd, Option.some.injEq] at hd2
        subst hd2
        rw [hm, Except.ok.injEq] at hm2
        rw [h1, h2, hm2]

/-- Witness of C19: the error "boom" together with the sample status. -/
theorem Reply_error_and_data_independent_witness :
    sampleMarshalStatusData sampleStatus = .ok (utf8Bytes
      "\x7b\"Agent\":\"Ready\",\"CmdQueue\":[\"Stop\"],\"Service\":\x7b\"mm\":\"Running\"\x7d\x7d") ∧
    (sampleCmd "" "Status" "R1").Reply sampleMarshalStatusData (some (errorsNew "boom"))
        (some sampleStatus)
      = .ok { Cmd := "Status", Error := "boom", RelayId := "R1", Data := some (utf8Bytes
      "\x7b\"Agent\":\"Ready\",\"CmdQueue\":[\"Stop\"],\"Service\":\x7b\"mm\":\"Running\"\x7d\x7d") } :=
  ⟨rfl,
   (Reply_error_and_data_independent sampleMarshalStatusData (sampleCmd "" "Status" "R1")
      (errorsNew "boom") sampleStatus _ rfl).1⟩

/-! ## The encoded form: omitted keys and the round trip -/

/-- The encoded form of a `Cmd` with empty Service and empty Data. -/
theorem encodeFields_cmd (c : Cmd) (hs : c.Service = "")
    (hd : c.Data = none ∨ c.Data = some []) :
    encodeFields (cmdFields c) =
      [("User", .str c.User), ("Ts", .time c.Ts), ("AgentUuid", .str c.AgentUuid),
       ("Cmd", .str c.Cmd)] ++
      (if c.RelayId = "" then [] else [("RelayId", .str c.RelayId)]) := by
  obtain ⟨u, t, a, cm, s, d, rl⟩ := c
  simp only at hs hd
  subst hs
  rcases hd with rfl | rfl <;> by_cases h : rl = "" <;>
    simp [encodeFields, cmdFields, GoValue.isEmpty, h, List.filter_cons]

/-- The encoded form of a `Reply` with empty Data. -/
theorem encodeFields_reply (r : Reply) (hd : r.Data = none ∨ r.Data = some []) :
    encodeFields (replyFields r) =
      [("Cmd", .str r.Cmd), ("Error", .str r.Error), ("RelayId", .str r.RelayId)] := by
  obtain ⟨c, e, d, rl⟩ := r
  simp only at hd
  rcases hd with rfl | rfl <;>
    simp [encodeFields, replyFields, GoValue.isEmpty, List.filter_cons]

/-- C14: the encoded form of a `Cmd` with empty Service and empty Data has no
key "Service" and no key "Data", and the encoded form of a `Reply` with empty
Data has no key "Data"; decoding these forms gives back the value with Service
empty and Data nil and every other field as it was. -/
theorem encoded_form_omits_empty_fields (c : Cmd) (r : Reply) (hs : c.Service = "")
    (hd : c.Data = none ∨ c.Data = some []) (hr : r.Data = none ∨ r.Data = some []) :
    "Service" ∉ encodedKeys (encodeFields (cmdFields c)) ∧
    "Data" ∉ encodedKeys (encodeFields (cmdFields c)) ∧
    "Data" ∉ encodedKeys (encodeFields (replyFields r)) ∧
    decodeCmd (encodeFields (cmdFields c)) = .ok { c with Service := "", Data := none } ∧
    decodeReply (encodeFields (replyFields r)) = .ok { r with Data := none } := by
  rw [encodeFields_cmd c hs hd, encodeFields_reply r hr]
  by_cases h : c.RelayId = ""
  · simp only [h, if_true, List.append_nil]
    refine ⟨by simp [encodedKeys], by simp [encodedKeys], by simp [encodedKeys], ?_, ?_⟩
    · simp [decodeCmd, decodeStr, decodeTime, decodeBytes, List.lookup, bind, Except.bind,
        pure, Except.pure]
    · simp [decodeReply, decodeStr, decodeBytes, List.lookup, bind, Except.bind,
        pure, Except.pure]
  · simp only [h, if_false]
    refine ⟨by simp [encodedKeys], by simp [encodedKeys], by simp [encodedKeys], ?_, ?_⟩
    · simp [decodeCmd, decodeStr, decodeTime, decodeBytes, List.lookup, bind, Except.bind,
        pure, Except.pure]
    · simp [decodeReply, decodeStr, decodeBytes, List.lookup, bind, Except.bind,
        pure, Except.pure]

/-- Witness of C14 at a `Cmd` for the agent without payload and at a `Reply`
whose Data is the empty, non-nil slice. -/
theorem encoded_form_omits_empty_fields_witness :
    ((sampleCmd "" "Status" "R1").Service = "" ∧ (sampleCmd "" "Status" "R1").Data = none ∧
      ({ Cmd := "Status", Error := "boom", Data := some [], RelayId := "R1" } : Reply).Data
        = some []) ∧
    encodedKeys (encodeFields (cmdFields (sampleCmd "" "Status" "R1")))
      = ["User", "Ts", "AgentUuid", "Cmd", "RelayId"] ∧
    encodedKeys (encodeFields (replyFields
        { Cmd := "Status", Error := "boom", Data := some [], RelayId := "R1" }))
      = ["Cmd", "Error", "RelayId"] ∧
    decodeCmd (encodeFields (cmdFields (sampleCmd "" "Status" "R1")))
      = .ok (sampleCmd "" "Status" "R1") ∧
    decodeReply (encodeFields (replyFields
        { Cmd := "Status", Error := "boom", Data := some [], RelayId := "R1" }))
      = .ok { Cmd := "Status", Error := "boom", Data := none, RelayId := "R1" } :=
  ⟨⟨rfl, rfl, rfl⟩, by decide, by decide,
   (encoded_form_omits_empty_fields (sampleCmd "" "Status" "R1")
      { Cmd := "Status", Error := "boom", Data := some [], RelayId := "R1" }
      rfl (Or.inl rfl) (Or.inr rfl)).2.2.2⟩

end Proto
